import Mathlib

/-!
Verification of `gammapy/utils/fitting/scipy.py` (likelihood fitting via the
scipy backend): `optimize_scipy`, `TSDifference`, `_confidence_scipy_brentq`,
`confidence_scipy`, `covariance_scipy`.

Shallow embedding conventions:
* Python float parameter values are modelled as rationals (`ℚ`); `np.nan`
  used as an "unset bound" marker becomes `Option ℚ` (`none` = NaN/unset).
* The mutable parameter set is a `List Param` threaded explicitly through
  every stateful operation.
* Python exceptions are modelled with `Except PyErr`; a raised exception is
  paired with the parameter-set state at the moment it escapes, since the
  `with parameters.restore_values` scope still restores state on that path.
* The external collaborators (scipy's `minimize` and `brentq`) are abstract
  structures exposing exactly the interface the spec declares for them.
-/

namespace GammapyFitting

/-- Exceptions that the modelled code can raise: `ValueError` (raised by the
bracketed root-finder on a non-bracketing interval), `UnboundLocalError`
(reading a local variable that was never assigned on the executed path), and
`NotImplementedError` (raised by `covariance_scipy`). -/
inductive PyErr where
  | valueError
  | unboundLocalError
  | notImplementedError
deriving DecidableEq, Repr

/-- Modelled from the spec: the Parameter data model (`gammapy/utils/fitting/
parameter.py` is not under `src/`). A parameter has a value expressed through
`factor` and `scale` (`value = factor * scale`), optimizer-space bounds
`factor_min`/`factor_max` (`none` models NaN = unset), a `frozen` flag, and an
externally supplied standard-error estimate `err` (the spec's opaque
`ParameterSet.error(parameter)`). -/
structure Param where
  factor : ℚ
  scale : ℚ
  factor_min : Option ℚ
  factor_max : Option ℚ
  frozen : Bool
  err : ℚ
deriving DecidableEq, Repr

instance : Inhabited Param := ⟨⟨0, 1, none, none, false, 0⟩⟩

/-- A parameter's value in physical units: `value = factor * scale`. -/
def Param.value (p : Param) : ℚ := p.factor * p.scale

/-- The fields of a parameter that none of the fitting code mutates
(everything except `factor` and `frozen`). -/
def Param.statics (p : Param) : ℚ × Option ℚ × Option ℚ × ℚ :=
  (p.scale, p.factor_min, p.factor_max, p.err)

/-- An objective function: an opaque, deterministic map from a parameter-set
state to a scalar (e.g. a negative log-likelihood). It reads the state and
does not mutate it. -/
def Objective : Type := List Param → ℚ

/-- Modelled from the spec: `Parameters.free_parameters` (the Parameters
container is not under `src/`) — the non-frozen parameters in set order. -/
def free_parameters (ps : List Param) : List Param :=
  ps.filter fun p => !p.frozen

/-- Modelled from the spec: the Likelihood adapter's factor write-back
(`gammapy/utils/fitting/likelihood.py` is not under `src/`). Writes each
entry of the factor vector into the corresponding free parameter, in set
order, zip-style (the spec leaves a length mismatch undefined; extra factors
are dropped, missing factors leave the remaining parameters unchanged). -/
def setFreeFactors : List Param → List ℚ → List Param
  | [], _ => []
  | p :: ps, factors =>
    if p.frozen then p :: setFreeFactors ps factors
    else
      match factors with
      | [] => p :: ps
      | f :: fs => { p with factor := f } :: setFreeFactors ps fs

/-- Setting `parameter.factor = x` on the parameter at position `i` of the
set (the target parameter is addressed by its position). -/
def setFactorAt : List Param → Nat → ℚ → List Param
  | [], _, _ => []
  | p :: ps, 0, x => { p with factor := x } :: ps
  | p :: ps, Nat.succ n, x => p :: setFactorAt ps n x

/-- Setting `parameter.frozen = True` on the parameter at position `i`. -/
def freezeAt : List Param → Nat → List Param
  | [], _ => []
  | p :: ps, 0 => { p with frozen := true } :: ps
  | p :: ps, Nat.succ n => p :: freezeAt ps n

/-- Modelled from the spec: `Likelihood.fcn` (`likelihood.py` is not under
`src/`): the flat-vector objective handed to the external minimizer. It
writes the factor vector into the free parameters and evaluates the user
function on the whole set; the state it leaves behind is
`setFreeFactors ps factors`. -/
def Likelihood.fcn (F : Objective) (ps : List Param) : List ℚ → ℚ :=
  fun factors => F (setFreeFactors ps factors)

/-- What the external minimizer reports back: the best-fit factor vector
`x`, the success flag, a termination message and the evaluation count — plus
`lastEval`, the factor vector of its final call to the objective, which is
the state the shared parameter set is left in (the minimizer communicates
with the parameter set only through `Likelihood.fcn`'s write-back). -/
structure MinimizeResult where
  x : List ℚ
  lastEval : List ℚ
  success : Bool
  message : String
  nfev : Nat
deriving DecidableEq, Repr

/-- Modelled from the spec: the external bounded minimizer
(`scipy.optimize.minimize`), an opaque algorithm receiving the flat
objective, the initial factor vector and per-parameter bound pairs, and
returning a `MinimizeResult`. -/
structure Minimizer where
  run : (List ℚ → ℚ) → List ℚ → List (Option ℚ × Option ℚ) → MinimizeResult

/-- The `info` dict built by `optimize_scipy`:
`{"success": ..., "message": ..., "nfev": ...}`. -/
structure OptInfo where
  success : Bool
  message : String
  nfev : Nat
deriving DecidableEq, Repr

/-- The `minimize(likelihood.fcn, pars, bounds=bounds, ...)` call made by
`optimize_scipy`: initial vector = factors of the free parameters, bounds =
their `(factor_min, factor_max)` pairs (NaN already modelled as `none`). -/
def scipyRun (M : Minimizer) (F : Objective) (parameters : List Param) :
    MinimizeResult :=
  M.run (Likelihood.fcn F parameters)
    ((free_parameters parameters).map Param.factor)
    ((free_parameters parameters).map fun par => (par.factor_min, par.factor_max))

/-- `optimize_scipy(parameters, function, **kwargs)`: builds the free-factor
vector and bounds, runs the external minimizer, and returns
`(factors, info)` together with the parameter-set state the minimizer's last
objective evaluation left behind (the source never re-applies `result.x` to
the parameter set). There is no validation and no raise path. -/
def optimize_scipy (M : Minimizer) (F : Objective) (parameters : List Param) :
    (List ℚ × OptInfo) × List Param :=
  let result := scipyRun M F parameters
  ((result.x, ⟨result.success, result.message, result.nfev⟩),
    setFreeFactors parameters result.lastEval)

/-- The state of a `TSDifference` object: the reference objective value and
the test-statistic threshold, both fixed at construction. -/
structure TSDifference where
  loglike_ref : ℚ
  ts_diff : ℚ
deriving DecidableEq, Repr

/-- `TSDifference.__init__`: evaluates `loglike_ref = function(parameters)`
on the incoming state (before freezing), stores `ts_diff`, and freezes the
target parameter. Returns the object together with the mutated set. -/
def TSDifference.init (F : Objective) (parameters : List Param) (i : Nat)
    (ts_diff : ℚ) : TSDifference × List Param :=
  (⟨F parameters, ts_diff⟩, freezeAt parameters i)

/-- `TSDifference.fcn(factor)`: sets the target parameter's factor, runs
`optimize_scipy` for its side effect on the parameter set (its return value
is discarded), then returns
`function(parameters) - loglike_ref - ts_diff` evaluated on the state the
optimizer left behind, together with that state. -/
def TSDifference.fcn (M : Minimizer) (F : Objective) (i : Nat)
    (self : TSDifference) (factor : ℚ) (s : List Param) : ℚ × List Param :=
  let s1 := setFactorAt s i factor
  let s2 := (optimize_scipy M F s1).2
  (F s2 - self.loglike_ref - self.ts_diff, s2)

/-- Running a stateful evaluation function over a list of trial points,
returning the final parameter-set state. -/
def evalChain (f : ℚ → List Param → ℚ × List Param) :
    List ℚ → List Param → List Param
  | [], s => s
  | x :: xs, s => evalChain f xs (f x s).2

/-- Modelled from the spec: the iteration core of the external bracketed
root-finder (`scipy.optimize.brentq`) after its endpoint sign check: an
opaque algorithm returning a root and an iteration count. `solve_state`
records that the algorithm touches the parameter set only through the
evaluation function it is given: its final state is reachable by some chain
of evaluations from its starting state. -/
structure RootFinder where
  solve : (ℚ → List Param → ℚ × List Param) → ℚ → ℚ → List Param →
    (ℚ × Nat) × List Param
  solve_state : ∀ f a b s, ∃ xs : List ℚ, (solve f a b s).2 = evalChain f xs s

/-- Modelled from the spec: `brentq(f, a=a, b=b, full_output=True)`. It
evaluates `f(a)` and `f(b)` and raises `ValueError` when they share a sign
(the bracketing precondition); otherwise the opaque iteration returns
`(root, iterations)`. The state of the shared parameter set is threaded
through every evaluation. -/
def brentq (R : RootFinder) (f : ℚ → List Param → ℚ × List Param)
    (a b : ℚ) (s : List Param) : Except PyErr (ℚ × Nat) × List Param :=
  let fa := (f a s).1
  let s1 := (f a s).2
  let fb := (f b s1).1
  let s2 := (f b s1).2
  if fa * fb > 0 then (.error .valueError, s2)
  else ((.ok (R.solve f a b s2).1), (R.solve f a b s2).2)

/-- The keyword arguments of `_confidence_scipy_brentq` that the code gives
defaults to (`kwargs.setdefault("a", ...)` / `kwargs.setdefault("b", ...)`):
`none` means the caller did not supply the key. Remaining keywords are
tolerances forwarded verbatim to the root-finder and are not modelled. -/
structure Kwargs where
  a : Option ℚ
  b : Option ℚ
deriving DecidableEq, Repr

/-- The far search endpoint computed by `_confidence_scipy_brentq`:
`bound = parameter.factor_max if upper else parameter.factor_min`; if that
bound is NaN (here `none`), fall back to
`parameter.factor ± 1e2 * parameters.error(parameter) / parameter.scale`. -/
def searchBound (upper : Bool) (par : Param) : ℚ :=
  match (if upper then par.factor_max else par.factor_min) with
  | some bound => bound
  | none =>
    if upper then par.factor + 100 * par.err / par.scale
    else par.factor - 100 * par.err / par.scale

/-- The effective `a` endpoint: `kwargs.setdefault("a", parameter.factor)`. -/
def effectiveA (kw : Kwargs) (par : Param) : ℚ :=
  kw.a.getD par.factor

/-- The effective `b` endpoint: `kwargs.setdefault("b", bound)` with `bound`
the configured-or-fallback far bound. -/
def effectiveB (kw : Kwargs) (upper : Bool) (par : Param) : ℚ :=
  kw.b.getD (searchBound upper par)

/-- One direction's result dict, before the `errp`/`errn` suffix is
attached: `{"nfev_<s>": ..., "<s>": ..., "success_<s>": ...,
"message_<s>": ..., "loglike_ref": ...}`. -/
structure ConfHalf where
  nfev : Nat
  err : ℚ
  success : Bool
  message : String
  loglike_ref : ℚ
deriving DecidableEq, Repr

/-- `_confidence_scipy_brentq(parameters, parameter, function, sigma,
upper, **kwargs)`: builds the `TSDifference` profile function with
`ts_diff = sigma ** 2` (freezing the target parameter), fills in the default
endpoints, and calls `brentq`.

On a `ValueError` from `brentq` the source's `except` branch sets
`message`/`success` to a structured failure, but the `return` expression then
reads `result[1].iterations` — and `result` was never assigned on that path,
so the call raises `UnboundLocalError` instead of returning; the failure
message and flag are dead stores. On success it returns the dict with the
iteration count, `abs(root - kwargs["a"])`, the success flag and message,
and `loglike_ref`. -/
def confidence_scipy_brentq (M : Minimizer) (R : RootFinder) (F : Objective)
    (i : Nat) (sigma : ℚ) (upper : Bool) (kw : Kwargs)
    (parameters : List Param) : Except PyErr ConfHalf × List Param :=
  let td := (TSDifference.init F parameters i (sigma ^ 2)).1
  let ps0 := (TSDifference.init F parameters i (sigma ^ 2)).2
  let par := ps0.getD i default
  let aEff := effectiveA kw par
  let bEff := effectiveB kw upper par
  let step := brentq R (TSDifference.fcn M F i td) aEff bEff ps0
  let outcome : Except PyErr ConfHalf :=
    match step.1 with
    | .ok result =>
      .ok ⟨result.2, |result.1 - aEff|, true,
        "Confidence terminated successfully.", td.loglike_ref⟩
    | .error .valueError =>
      -- `except ValueError:` sets success=False and the explanatory message,
      -- but the subsequent `result[1].iterations` reads the unassigned local
      -- `result`, so the code raises instead of returning those values.
      .error .unboundLocalError
    | .error e => .error e
  (outcome, step.2)

/-- The merged result of `confidence_scipy` (`result.update(result_errp)`);
the `loglike_ref` key, present in both halves, ends up with the `errp`
half's value. -/
structure ConfResult where
  nfev_errn : Nat
  errn : ℚ
  success_errn : Bool
  message_errn : String
  nfev_errp : Nat
  errp : ℚ
  success_errp : Bool
  message_errp : String
  loglike_ref : ℚ
deriving DecidableEq, Repr

/-- `result.update(result_errp)` on the two suffixed dicts. -/
def updateResult (errn errp : ConfHalf) : ConfResult :=
  ⟨errn.nfev, errn.err, errn.success, errn.message,
    errp.nfev, errp.err, errp.success, errp.message, errp.loglike_ref⟩

/-- Modelled from the spec: `Parameters.restore_values` (the Parameters
container is not under `src/`) — a scope that snapshots every parameter's
value and frozen flag on entry and writes them back on every exit path.
`restore_values snapshot s` is the state after the write-back: each
parameter of `s` with its `factor` (hence its value, the scale being
untouched by all of this code) and `frozen` flag taken from the snapshot. -/
def restore_values (snapshot s : List Param) : List Param :=
  List.zipWith
    (fun old cur => { cur with factor := old.factor, frozen := old.frozen })
    snapshot s

/-- `confidence_scipy(parameters, parameter, function, sigma, **kwargs)`:
runs the lower search (`upper=False`) inside a `restore_values` scope, then
the upper search (`upper=True`) inside another, and merges the two dicts.
If a search raises, its scope still restores the parameter state and the
exception propagates to the caller. -/
def confidence_scipy (M : Minimizer) (R : RootFinder) (F : Objective)
    (i : Nat) (sigma : ℚ) (kw : Kwargs) (parameters : List Param) :
    Except PyErr ConfResult × List Param :=
  let r1 := confidence_scipy_brentq M R F i sigma false kw parameters
  let s1 := restore_values parameters r1.2
  match r1.1 with
  | .error e => (.error e, s1)
  | .ok result =>
    let r2 := confidence_scipy_brentq M R F i sigma true kw s1
    let s2 := restore_values s1 r2.2
    match r2.1 with
    | .error e => (.error e, s2)
    | .ok result_errp => (.ok (updateResult result result_errp), s2)

/-- `covariance_scipy(parameters, function)`: `raise NotImplementedError`. -/
def covariance_scipy (F : Objective) (parameters : List Param) :
    Except PyErr Unit :=
  .error .notImplementedError

/-! ### Preservation of the non-mutated fields

All of the fitting code mutates parameters only through `setFreeFactors`,
`setFactorAt` and `freezeAt`, which touch `factor` and `frozen` only. The
`staticsMap` of a state (scales, bounds, error estimates, in order) is
therefore invariant, which is what makes the `restore_values` write-back a
genuine restoration. -/

/-- The per-parameter static data of a state. -/
def staticsMap (s : List Param) : List (ℚ × Option ℚ × Option ℚ × ℚ) :=
  s.map Param.statics

lemma statics_set_factor (p : Param) (x : ℚ) :
    Param.statics { p with factor := x } = Param.statics p := rfl

lemma staticsMap_setFreeFactors (ps : List Param) (fs : List ℚ) :
    staticsMap (setFreeFactors ps fs) = staticsMap ps := by
  induction ps generalizing fs with
  | nil => simp [setFreeFactors]
  | cons p ps ih =>
    by_cases hp : p.frozen
    · simp [setFreeFactors, hp, staticsMap] at ih ⊢
      exact ih fs
    · cases fs with
      | nil => simp [setFreeFactors, hp]
      | cons f fs =>
        simp [setFreeFactors, hp, staticsMap] at ih ⊢
        exact ⟨rfl, ih fs⟩

lemma staticsMap_setFactorAt (ps : List Param) (i : Nat) (x : ℚ) :
    staticsMap (setFactorAt ps i x) = staticsMap ps := by
  induction ps generalizing i with
  | nil => simp [setFactorAt]
  | cons p ps ih =>
    cases i with
    | zero => simp [setFactorAt, staticsMap, Param.statics]
    | succ n => simp [setFactorAt, staticsMap] at ih ⊢; exact ih n

lemma staticsMap_freezeAt (ps : List Param) (i : Nat) :
    staticsMap (freezeAt ps i) = staticsMap ps := by
  induction ps generalizing i with
  | nil => simp [freezeAt]
  | cons p ps ih =>
    cases i with
    | zero => simp [freezeAt, staticsMap, Param.statics]
    | succ n => simp [freezeAt, staticsMap] at ih ⊢; exact ih n

lemma staticsMap_optimize (M : Minimizer) (F : Objective) (s : List Param) :
    staticsMap (optimize_scipy M F s).2 = staticsMap s := by
  simp [optimize_scipy, staticsMap_setFreeFactors]

lemma staticsMap_tsFcn (M : Minimizer) (F : Objective) (i : Nat)
    (td : TSDifference) (x : ℚ) (s : List Param) :
    staticsMap (TSDifference.fcn M F i td x s).2 = staticsMap s := by
  simp [TSDifference.fcn, staticsMap_optimize, staticsMap_setFactorAt]

lemma staticsMap_evalChain {f : ℚ → List Param → ℚ × List Param}
    (hf : ∀ x s, staticsMap (f x s).2 = staticsMap s)
    (xs : List ℚ) (s : List Param) :
    staticsMap (evalChain f xs s) = staticsMap s := by
  induction xs generalizing s with
  | nil => simp [evalChain]
  | cons x xs ih => simp [evalChain]; rw [ih, hf]

lemma staticsMap_brentq (R : RootFinder)
    {f : ℚ → List Param → ℚ × List Param}
    (hf : ∀ x s, staticsMap (f x s).2 = staticsMap s)
    (a b : ℚ) (s : List Param) :
    staticsMap (brentq R f a b s).2 = staticsMap s := by
  unfold brentq
  set s2 := (f b (f a s).2).2 with hs2
  have h2 : staticsMap s2 = staticsMap s := by rw [hs2, hf, hf]
  by_cases hbr : (f a s).1 * (f b (f a s).2).1 > 0
  · simpa [hbr] using h2
  · obtain ⟨xs, hxs⟩ := R.solve_state f a b s2
    simpa [hbr, hxs, staticsMap_evalChain hf] using h2

lemma staticsMap_confidence_brentq (M : Minimizer) (R : RootFinder)
    (F : Objective) (i : Nat) (sigma : ℚ) (upper : Bool) (kw : Kwargs)
    (ps : List Param) :
    staticsMap (confidence_scipy_brentq M R F i sigma upper kw ps).2
      = staticsMap ps := by
  have hsnd : (confidence_scipy_brentq M R F i sigma upper kw ps).2
      = (brentq R
          (TSDifference.fcn M F i (TSDifference.init F ps i (sigma ^ 2)).1)
          (effectiveA kw ((TSDifference.init F ps i (sigma ^ 2)).2.getD i default))
          (effectiveB kw upper
            ((TSDifference.init F ps i (sigma ^ 2)).2.getD i default))
          (TSDifference.init F ps i (sigma ^ 2)).2).2 := rfl
  have hfr : staticsMap (TSDifference.init F ps i (sigma ^ 2)).2
      = staticsMap ps := by
    simp [TSDifference.init, staticsMap_freezeAt]
  rw [hsnd, staticsMap_brentq R (staticsMap_tsFcn M F i
    (TSDifference.init F ps i (sigma ^ 2)).1), hfr]

/-- Writing back a snapshot with identical static fields restores the
snapshot exactly. -/
lemma restore_values_eq (snapshot s : List Param)
    (h : staticsMap s = staticsMap snapshot) :
    restore_values snapshot s = snapshot := by
  induction snapshot generalizing s with
  | nil =>
    cases s with
    | nil => rfl
    | cons q s => simp [staticsMap] at h
  | cons p ps ih =>
    cases s with
    | nil => simp [staticsMap] at h
    | cons q s =>
      simp only [staticsMap, List.map_cons, List.cons.injEq] at h
      have hq : { q with factor := p.factor, frozen := p.frozen } = p := by
        cases p; cases q
        simp [Param.statics] at h ⊢
        exact ⟨h.1.1, h.1.2.1, h.1.2.2.1, h.1.2.2.2⟩
      simp [restore_values] at ih ⊢
      exact ⟨hq, ih s h.2⟩

/-- The central restoration fact: whatever the two bracket searches do
(including raising), `confidence_scipy` hands back the parameter set in
exactly its pre-call state. -/
lemma confidence_scipy_state (M : Minimizer) (R : RootFinder) (F : Objective)
    (i : Nat) (sigma : ℚ) (kw : Kwargs) (ps : List Param) :
    (confidence_scipy M R F i sigma kw ps).2 = ps := by
  have h1 : restore_values ps
      (confidence_scipy_brentq M R F i sigma false kw ps).2 = ps :=
    restore_values_eq _ _ (staticsMap_confidence_brentq M R F i sigma false kw ps)
  have h2 : restore_values ps
      (confidence_scipy_brentq M R F i sigma true kw ps).2 = ps :=
    restore_values_eq _ _ (staticsMap_confidence_brentq M R F i sigma true kw ps)
  unfold confidence_scipy
  simp only [h1]
  rcases hr1 : (confidence_scipy_brentq M R F i sigma false kw ps).1 with e | r
  · simp [hr1]
  · rcases hr2 : (confidence_scipy_brentq M R F i sigma true kw ps).1 with e | r2 <;>
      simp [hr1, hr2, h2]

/-! ### Concrete instances of the external collaborators

Used to evaluate the embedded code on explicit inputs. -/

/-- A concrete external minimizer: it reports the initial point as the
optimum and evaluates the objective there once. -/
def Mtriv : Minimizer :=
  ⟨fun _f pars _bounds => ⟨pars, pars, true, "Optimization terminated successfully.", 1⟩⟩

/-- A concrete external minimizer that never converges. -/
def Mfail : Minimizer :=
  ⟨fun _f pars _bounds =>
    ⟨pars, pars, false, "Maximum number of function evaluations has been exceeded.", 200⟩⟩

/-- A concrete root-finder iteration: it performs no further evaluations and
reports the endpoint `a` as the root. -/
def Rtriv : RootFinder :=
  ⟨fun _f a _b s => ((a, 0), s), fun f a b s => ⟨[], rfl⟩⟩

/-- A single free parameter at factor `0`, scale `1`, no bounds, and an
external standard-error estimate of `1`. -/
def pC : Param := ⟨0, 1, none, none, false, 1⟩

/-- A strictly decreasing objective in the factor of parameter `0`: with it
the upper profile search cannot bracket the threshold crossing. -/
def FC : Objective := fun s => -(s.getD 0 default).factor

/-- A minimizer whose reported optimum (`x = [5]`) differs from the point
its last objective evaluation wrote into the parameter set
(`lastEval = [7]`). -/
def M0 : Minimizer := ⟨fun _f _pars _bounds => ⟨[5], [7], true, "ok", 2⟩⟩

/-- An objective reading the factor of parameter `0`. -/
def F0 : Objective := fun s => (s.getD 0 default).factor

/-- A two-parameter set: parameter `0` free, parameter `1` (the profile
target) frozen. -/
def s0 : List Param := [⟨0, 1, none, none, false, 0⟩, ⟨1, 1, none, none, true, 0⟩]

/-- A parameter with distinctive fields for endpoint-formula witnesses:
factor `3`, scale `4`, no bounds, error estimate `2`. -/
def pW : Param := ⟨3, 4, none, none, false, 2⟩

lemma freezeAt_getD_frozen (ps : List Param) (i : Nat) (h : i < ps.length) :
    ((freezeAt ps i).getD i default).frozen = true := by
  induction ps generalizing i with
  | nil => simp at h
  | cons p ps ih =>
    cases i with
    | zero => simp [freezeAt]
    | succ n =>
      simp only [freezeAt, List.getD_cons_succ]
      exact ih n (Nat.lt_of_succ_lt_succ h)

lemma free_parameters_all_frozen {ps : List Param}
    (h : ∀ p ∈ ps, p.frozen = true) : free_parameters ps = [] := by
  simp only [free_parameters, List.filter_eq_nil_iff]
  intro p hp
  simp [h p hp]

lemma setFreeFactors_all_frozen {ps : List Param}
    (h : ∀ p ∈ ps, p.frozen = true) (fs : List ℚ) :
    setFreeFactors ps fs = ps := by
  induction ps generalizing fs with
  | nil => rfl
  | cons p ps ih =>
    have hp : p.frozen = true := h p (List.mem_cons_self p ps)
    simp only [setFreeFactors, hp, if_true]
    rw [ih fun q hq => h q (List.mem_cons_of_mem p hq)]

/-! ### The claims -/

/-- C1: the claim says a bracketing failure of the root-finder is converted
into a structured result with the success flag `False` and a message, never
an uncaught error. The code contradicts this (and its own `except` handler's
evident intent): on the failing input below — a strictly decreasing
objective, for which both endpoint evaluations of the upper profile search
are negative, so `brentq` raises `ValueError` — the call raises
`UnboundLocalError`, because the `except ValueError:` branch never assigns
the local `result` that the return expression then reads. -/
theorem C1_bracketing_failure_raises :
    (TSDifference.fcn Mtriv FC 0 (TSDifference.init FC [pC] 0 1).1 0
        (freezeAt [pC] 0)).1 = -1
    ∧ (TSDifference.fcn Mtriv FC 0 (TSDifference.init FC [pC] 0 1).1 100
        (freezeAt [pC] 0)).1 = -101
    ∧ (confidence_scipy Mtriv Rtriv FC 0 1 ⟨none, none⟩ [pC]).1
        = Except.error PyErr.unboundLocalError := by
  refine ⟨?_, ?_, ?_⟩ <;>
    norm_num [confidence_scipy, confidence_scipy_brentq, brentq, TSDifference.fcn,
      TSDifference.init, optimize_scipy, scipyRun, Likelihood.fcn, free_parameters,
      setFreeFactors, setFactorAt, freezeAt, effectiveA, effectiveB, searchBound,
      Mtriv, Rtriv, FC, pC, restore_values, updateResult]

/-- C2: after any `confidence_scipy` call — normal return or raised error —
every parameter's value and frozen flag equals its pre-call value: the
scoped `restore_values` write-back, together with the fact that the searches
mutate only factors and frozen flags, restores the set exactly. -/
theorem C2_restoration (M : Minimizer) (R : RootFinder) (F : Objective)
    (i : Nat) (sigma : ℚ) (kw : Kwargs) (ps : List Param) :
    ((confidence_scipy M R F i sigma kw ps).2).map (fun p => (p.value, p.frozen))
      = ps.map (fun p => (p.value, p.frozen)) := by
  rw [confidence_scipy_state]

/-- C3: the profile evaluation function sets the target parameter's factor
to the candidate value, runs the point optimizer (over the remaining free
parameters: the target is frozen by the `TSDifference` constructor), and
returns `objective(state) - loglike_ref - ts_diff` at the state the
optimizer left, where `loglike_ref` is the objective at the pre-freeze
construction state and `ts_diff = sigma ^ 2`. -/
theorem C3_profile_evaluation (M : Minimizer) (F : Objective)
    (ps : List Param) (i : Nat) (sigma x : ℚ) (s : List Param)
    (h : i < ps.length) :
    (TSDifference.init F ps i (sigma ^ 2)).1.loglike_ref = F ps
    ∧ (TSDifference.init F ps i (sigma ^ 2)).1.ts_diff = sigma ^ 2
    ∧ ((TSDifference.init F ps i (sigma ^ 2)).2.getD i default).frozen = true
    ∧ TSDifference.fcn M F i (TSDifference.init F ps i (sigma ^ 2)).1 x s
        = (F (optimize_scipy M F (setFactorAt s i x)).2 - F ps - sigma ^ 2,
           (optimize_scipy M F (setFactorAt s i x)).2) :=
  ⟨rfl, rfl, freezeAt_getD_frozen ps i h, rfl⟩

/-- C3 witness: the profile-evaluation characterisation at a concrete
input. -/
theorem C3_profile_evaluation_witness :
    1 < s0.length
    ∧ ((TSDifference.init F0 s0 1 ((2 : ℚ) ^ 2)).1.loglike_ref = F0 s0
      ∧ (TSDifference.init F0 s0 1 ((2 : ℚ) ^ 2)).1.ts_diff = (2 : ℚ) ^ 2
      ∧ ((TSDifference.init F0 s0 1 ((2 : ℚ) ^ 2)).2.getD 1 default).frozen = true
      ∧ TSDifference.fcn Mtriv F0 1 (TSDifference.init F0 s0 1 ((2 : ℚ) ^ 2)).1 9 s0
          = (F0 (optimize_scipy Mtriv F0 (setFactorAt s0 1 9)).2 - F0 s0 - (2 : ℚ) ^ 2,
             (optimize_scipy Mtriv F0 (setFactorAt s0 1 9)).2)) :=
  ⟨by decide, C3_profile_evaluation Mtriv F0 s0 1 2 9 s0 (by decide)⟩

/-- C4: the profile evaluation discards the factors the inner optimization
reports (`result.x`) and evaluates the objective at the state the
minimizer's last evaluation wrote back (`lastEval`); with a minimizer whose
reported optimum differs from its last evaluated point, the two give
different objective values (7 vs 5 below). -/
theorem C4_last_eval_not_best_fit :
    (∀ (M : Minimizer) (F : Objective) (i : Nat) (td : TSDifference)
      (x : ℚ) (s : List Param),
      TSDifference.fcn M F i td x s
        = (F (setFreeFactors (setFactorAt s i x)
              (scipyRun M F (setFactorAt s i x)).lastEval)
            - td.loglike_ref - td.ts_diff,
           setFreeFactors (setFactorAt s i x)
              (scipyRun M F (setFactorAt s i x)).lastEval))
    ∧ (TSDifference.fcn M0 F0 1 ⟨0, 0⟩ 9 s0).1 = 7
    ∧ F0 (setFreeFactors (setFactorAt s0 1 9)
          (optimize_scipy M0 F0 (setFactorAt s0 1 9)).1.1) = 5
    ∧ (TSDifference.fcn M0 F0 1 ⟨0, 0⟩ 9 s0).1
        ≠ F0 (setFreeFactors (setFactorAt s0 1 9)
          (optimize_scipy M0 F0 (setFactorAt s0 1 9)).1.1) := by
  refine ⟨fun M F i td x s => rfl, ?_, ?_, ?_⟩ <;>
    norm_num [TSDifference.fcn, optimize_scipy, scipyRun, Likelihood.fcn,
      free_parameters, setFreeFactors, setFactorAt, M0, F0, s0]

/-- C5: with no caller override of `b`, the far search endpoint is the
configured bound in the search direction when it is set, and otherwise the
fallback `factor ± 100 * error / scale`. -/
theorem C5_far_endpoint (p : Param) (kw : Kwargs) (hb : kw.b = none) :
    (p.factor_max = none →
      effectiveB kw true p = p.factor + 100 * p.err / p.scale)
    ∧ (p.factor_min = none →
      effectiveB kw false p = p.factor - 100 * p.err / p.scale)
    ∧ (∀ m, p.factor_max = some m → effectiveB kw true p = m)
    ∧ (∀ m, p.factor_min = some m → effectiveB kw false p = m) := by
  refine ⟨fun hmax => ?_, fun hmin => ?_, fun m hmax => ?_, fun m hmin => ?_⟩
  · simp [effectiveB, searchBound, hb, hmax]
  · simp [effectiveB, searchBound, hb, hmin]
  · simp [effectiveB, searchBound, hb, hmax]
  · simp [effectiveB, searchBound, hb, hmin]

/-- C5 witness: the fallback endpoint at a concrete parameter (factor 3,
error estimate 2, scale 4): `3 + 100 * 2 / 4 = 53`. -/
theorem C5_far_endpoint_witness :
    effectiveB ⟨none, none⟩ true pW = 53 := by
  have h := (C5_far_endpoint pW ⟨none, none⟩ rfl).1 rfl
  rw [h]
  norm_num [pW]

/-- An all-frozen one-parameter set. -/
def psFrozen : List Param := [⟨1, 2, none, none, true, 0⟩]

/-- C6 counterexample: the claim says `optimize` fails immediately with an
explicit configuration error on an all-frozen parameter set and never
returns a result. The source performs no such check: on the all-frozen set
below (with a minimizer that terminates on the empty vector) it returns a
normal result — here even with `success = True`. -/
theorem C6_counterexample :
    optimize_scipy Mtriv FC psFrozen
      = (([], ⟨true, "Optimization terminated successfully.", 1⟩), psFrozen) := by
  norm_num [optimize_scipy, scipyRun, Likelihood.fcn, free_parameters,
    setFreeFactors, Mtriv, FC, psFrozen, OptInfo.mk.injEq]

/-- C6 amended: `optimize_scipy` performs no configuration validation. With
every parameter frozen it hands the external minimizer an empty factor
vector and empty bounds and returns whatever result the minimizer reports,
leaving the parameter set unchanged; any immediate failure could only come
from the external minimizer, not from `optimize_scipy` itself. -/
theorem C6_no_empty_set_check (M : Minimizer) (F : Objective)
    (ps : List Param) (h : ∀ p ∈ ps, p.frozen = true) :
    free_parameters ps = []
    ∧ optimize_scipy M F ps
        = (((M.run (Likelihood.fcn F ps) [] []).x,
            ⟨(M.run (Likelihood.fcn F ps) [] []).success,
             (M.run (Likelihood.fcn F ps) [] []).message,
             (M.run (Likelihood.fcn F ps) [] []).nfev⟩), ps) := by
  have hfree := free_parameters_all_frozen h
  refine ⟨hfree, ?_⟩
  simp only [optimize_scipy, scipyRun, hfree, List.map_nil]
  rw [setFreeFactors_all_frozen h]

/-- C6 witness: the amended statement at a concrete all-frozen set. -/
theorem C6_no_empty_set_check_witness :
    (∀ p ∈ psFrozen, p.frozen = true)
    ∧ (free_parameters psFrozen = []
      ∧ optimize_scipy Mfail F0 psFrozen
          = (((Mfail.run (Likelihood.fcn F0 psFrozen) [] []).x,
              ⟨(Mfail.run (Likelihood.fcn F0 psFrozen) [] []).success,
               (Mfail.run (Likelihood.fcn F0 psFrozen) [] []).message,
               (Mfail.run (Likelihood.fcn F0 psFrozen) [] []).nfev⟩), psFrozen)) :=
  ⟨by decide, C6_no_empty_set_check Mfail F0 psFrozen (by decide)⟩

/-- C7: when the external minimizer terminates without converging,
`optimize_scipy` still returns normally, surfacing `success = False`
together with the minimizer's own termination message, its final factors
and its evaluation count. -/
theorem C7_nonconvergence_surfaced (M : Minimizer) (F : Objective)
    (ps : List Param) (h : (scipyRun M F ps).success = false) :
    optimize_scipy M F ps
      = (((scipyRun M F ps).x,
          ⟨false, (scipyRun M F ps).message, (scipyRun M F ps).nfev⟩),
         setFreeFactors ps (scipyRun M F ps).lastEval) := by
  simp [optimize_scipy, h]

/-- C7 witness: the non-convergence pass-through with a concrete failing
minimizer. -/
theorem C7_nonconvergence_surfaced_witness :
    (scipyRun Mfail F0 s0).success = false
    ∧ optimize_scipy Mfail F0 s0
        = (((scipyRun Mfail F0 s0).x,
            ⟨false, (scipyRun Mfail F0 s0).message, (scipyRun Mfail F0 s0).nfev⟩),
           setFreeFactors s0 (scipyRun Mfail F0 s0).lastEval) :=
  ⟨by decide, C7_nonconvergence_surfaced Mfail F0 s0 (by decide)⟩

/-- C8: `confidence_scipy` is idempotent: the parameter set is handed back
in its pre-call state, so a second call from that state is the same call
and yields the identical result, and the state after both calls equals the
state before the first. -/
theorem C8_idempotent (M : Minimizer) (R : RootFinder) (F : Objective)
    (i : Nat) (sigma : ℚ) (kw : Kwargs) (ps : List Param) :
    confidence_scipy M R F i sigma kw ((confidence_scipy M R F i sigma kw ps).2)
      = confidence_scipy M R F i sigma kw ps
    ∧ (confidence_scipy M R F i sigma kw ps).2 = ps
    ∧ (confidence_scipy M R F i sigma kw
        ((confidence_scipy M R F i sigma kw ps).2)).2 = ps := by
  have h := confidence_scipy_state M R F i sigma kw ps
  exact ⟨by rw [h], h, by rw [h, h]⟩

/-- C9: `covariance_scipy` raises `NotImplementedError` for every input and
never returns a value. -/
theorem C9_covariance_unimplemented (F : Objective) (ps : List Param) :
    covariance_scipy F ps = Except.error PyErr.notImplementedError := rfl

/-- C10: the caller's keyword overrides of the endpoints are forwarded
unchanged to both the lower (`upper = False`) and the upper (`upper = True`)
search: a single override of `b` fixes the same far endpoint for both
directions, whatever the target parameter's own fields say, so distinct
manual intervals for the two searches cannot be specified through
`confidence_scipy`. -/
theorem C10_shared_overrides (kw : Kwargs) (w v : ℚ)
    (ha : kw.a = some w) (hb : kw.b = some v) :
    ∀ (upper : Bool) (p : Param),
      effectiveA kw p = w ∧ effectiveB kw upper p = v := by
  intro upper p
  simp [effectiveA, effectiveB, ha, hb]

/-- C10 witness: a concrete override pins the same endpoints for both the
lower and the upper search, on a parameter whose own fallback would have
been different. -/
theorem C10_shared_overrides_witness :
    effectiveA ⟨some 2, some 5⟩ pW = 2
    ∧ effectiveB ⟨some 2, some 5⟩ false pW = 5
    ∧ effectiveB ⟨some 2, some 5⟩ true pW = 5 :=
  ⟨(C10_shared_overrides ⟨some 2, some 5⟩ 2 5 rfl rfl false pW).1,
   (C10_shared_overrides ⟨some 2, some 5⟩ 2 5 rfl rfl false pW).2,
   (C10_shared_overrides ⟨some 2, some 5⟩ 2 5 rfl rfl true pW).2⟩

end GammapyFitting
